import Mathlib

/-!
Verification development for the windi-reader-sdk repository.

This file embeds the hash-utility, canonicalization and verification
orchestrator logic of the SDK as executable Lean definitions and proves
the frozen claims about them.

Modelling conventions:
- Byte buffers and hex digests are modelled as Lean strings.
- The SHA-256 primitive comes from the Node crypto module, which is outside
  this repository; the SDK logic never inspects a digest beyond string
  equality and string concatenation, so every definition that hashes takes
  the digest function as an explicit parameter H on strings.
- JavaScript object fields that may be absent are modelled as Option String;
  JavaScript truthiness of such a field means: present and not empty.
- Date.now() is modelled as an explicit parameter now, and the engine
  specific test that new Date(s) parses to a valid date is modelled as a
  Boolean parameter dateOK.
-/

/-- JSON like values as consumed by canonicalizeJSON in hash-utils.
Numbers are modelled as integers (float formatting is outside the claims).
The undef constructor models a JavaScript undefined appearing as an object
field value, which the custom serializer renders as the text undefined via
string concatenation. -/
inductive JSONValue where
  | null : JSONValue
  | undef : JSONValue
  | bool : Bool → JSONValue
  | num : Int → JSONValue
  | str : String → JSONValue
  | arr : List JSONValue → JSONValue
  | obj : List (String × JSONValue) → JSONValue

/-- Hexadecimal digit character for a value below 16, lowercase. -/
def hexDigit (n : Nat) : Char :=
  if n < 10 then Char.ofNat (48 + n) else Char.ofNat (87 + n)

/-- Escape of a single character as produced by JSON.stringify on strings. -/
def escapeChar (c : Char) : String :=
  if c == '"' then "\\\""
  else if c == '\\' then "\\\\"
  else if c == '\x08' then "\\b"
  else if c == '\x0c' then "\\f"
  else if c == '\n' then "\\n"
  else if c == '\r' then "\\r"
  else if c == '\t' then "\\t"
  else if c.toNat < 32 then
    "\\u00" ++ String.mk [hexDigit (c.toNat / 16), hexDigit (c.toNat % 16)]
  else String.singleton c

/-- Model of JSON.stringify applied to a string value. -/
def jsonQuote (s : String) : String :=
  "\"" ++ String.join (s.toList.map escapeChar) ++ "\""

/-- Ordering of rendered object entries by their key, as produced by
Array.prototype.sort on the key list.  Keys are compared through their
character lists, which agrees with the JavaScript code unit order on
strings of basic plane characters. -/
def pairKeyLE (p q : String × String) : Prop := p.1.data ≤ q.1.data

instance : DecidableRel pairKeyLE := fun p q =>
  inferInstanceAs (Decidable (p.1.data ≤ q.1.data))

instance : IsTotal (String × String) pairKeyLE :=
  ⟨fun p q => le_total p.1.data q.1.data⟩

instance : IsTrans (String × String) pairKeyLE :=
  ⟨fun _ _ _ h1 h2 => le_trans h1 h2⟩

/-- Sorting of the rendered object entries by key.  In JavaScript the keys of
an object are unique and are sorted before the values are serialized; for
lists with unique keys, sorting the pairs of key and rendered value is the
same operation. -/
def sortPairs (l : List (String × String)) : List (String × String) :=
  List.insertionSort pairKeyLE l

/-- Rendering of one sorted object entry: JSON.stringify of the key, a colon,
and the already canonicalized value. -/
def renderPairs (l : List (String × String)) : List String :=
  l.map (fun p => jsonQuote p.1 ++ ":" ++ p.2)

mutual

/-- Model of canonicalizeJSON from hash-utils: scalars by their literal
serialization, arrays elementwise in order, objects with keys sorted
ascending and no inner whitespace. -/
def canonicalizeJSON : JSONValue → String
  | .null => "null"
  | .undef => "undefined"
  | .bool true => "true"
  | .bool false => "false"
  | .num n => toString n
  | .str s => jsonQuote s
  | .arr l => "[" ++ String.intercalate "," (canonElems l) ++ "]"
  | .obj l =>
      "\x7b" ++ String.intercalate "," (renderPairs (sortPairs (canonPairs l))) ++ "\x7d"
termination_by structural v => v

/-- Canonical serialization of each array element, in order. -/
def canonElems : List JSONValue → List String
  | [] => []
  | v :: rest => canonicalizeJSON v :: canonElems rest
termination_by structural l => l

/-- Pairs of key and canonical serialization of the value, in object order. -/
def canonPairs : List (String × JSONValue) → List (String × String)
  | [] => []
  | (k, v) :: rest => (k, canonicalizeJSON v) :: canonPairs rest
termination_by structural l => l

end

/-- Model of verifyChainLink from hash-utils: recompute the chain hash by
plain string concatenation and compare. -/
def verifyChainLink (H : String → String) (prevHash payload expectedHash : String) : Bool :=
  H (prevHash ++ payload) == expectedHash

/-- Model of generateChainHash from hash-utils. -/
def generateChainHash (H : String → String) (prevHash payload : String) : String :=
  H (prevHash ++ payload)

/-- One level of the simplified Merkle computation in verifyMerkleRoot.
The JavaScript takes right = level[i + 1] || left, so a missing right
neighbour, and likewise an empty string right neighbour, is replaced by
the left element of the pair. -/
def merkleLevel (H : String → String) : List String → List String
  | [] => []
  | [a] => [H (a ++ a)]
  | a :: b :: rest => H (a ++ (if b == "" then a else b)) :: merkleLevel H rest

theorem merkleLevel_length (H : String → String) :
    ∀ l : List String, (merkleLevel H l).length = (l.length + 1) / 2
  | [] => by simp [merkleLevel]
  | [_] => by simp [merkleLevel]
  | _ :: _ :: rest => by
      simp [merkleLevel, merkleLevel_length H rest]
      omega

/-- Iteration of the level computation while more than one digest remains,
written with explicit fuel so that it evaluates by kernel reduction.  Each
level at least halves the length, so the initial length is always enough
fuel; the lemma below confirms that the loop condition has become false
when the fuel chosen by merkleIter runs out. -/
def merkleIterN (H : String → String) : Nat → List String → List String
  | 0, l => l
  | n + 1, l => if l.length > 1 then merkleIterN H n (merkleLevel H l) else l

/-- Iteration of the level computation, fueled by the initial length. -/
def merkleIter (H : String → String) (l : List String) : List String :=
  merkleIterN H l.length l

theorem merkleIterN_length_le (H : String → String) :
    ∀ (fuel : Nat) (l : List String), l.length ≤ fuel + 1 →
      (merkleIterN H fuel l).length ≤ 1
  | 0, l, h => by
      simpa [merkleIterN] using h
  | fuel + 1, l, h => by
      by_cases hl : l.length > 1
      · have hlev : (merkleLevel H l).length ≤ fuel + 1 := by
          rw [merkleLevel_length]
          omega
        simpa [merkleIterN, hl] using merkleIterN_length_le H fuel _ hlev
      · simp [merkleIterN, hl]
        omega

theorem merkleIter_length_le (H : String → String) (l : List String) :
    (merkleIter H l).length ≤ 1 :=
  merkleIterN_length_le H l.length l (by omega)

/-- Model of verifyMerkleRoot from hash-utils: empty input is invalid, a
single leaf is compared directly, otherwise levels are folded and the
remaining digest is compared to the expected root. -/
def verifyMerkleRoot (H : String → String) (hashes : List String)
    (expectedRoot : String) : Bool :=
  match hashes with
  | [] => false
  | [x] => x == expectedRoot
  | _ =>
      match merkleIter H hashes with
      | [] => false
      | r :: _ => r == expectedRoot

/-- Genesis sentinel constant from hash-utils, copied verbatim. -/
def GENESIS_HASH : String :=
  "0000000000000000000000000000000000000000000000000000000000000000"

/-- Virtue Receipt fields read by the verification logic.  The fields
sge_scores, actor and signature are declared in the JSDoc shape but are
never read by any verification code, so they are not modelled. -/
structure VirtueReceipt where
  document_id : Option String
  hash : Option String
  prev_hash : Option String
  chain_hash : Option String
  timestamp : Option String
  governance_level : Option String
  isp_profile : Option String
deriving DecidableEq

/-- Verification status enumeration of the client. -/
inductive VerificationStatus where
  | VERIFIED
  | INVALID
  | PENDING
  | ERROR
  | NO_GOVERNANCE
deriving DecidableEq

/-- Verification result record returned by the orchestrator.  The field
verifiedAt is Option valued because the empty result initializes it to
null and not every return path assigns it. -/
structure VerificationResult where
  verified : Bool
  status : VerificationStatus
  documentHash : Option String
  virtueReceipt : Option VirtueReceipt
  governanceLevel : Option String
  ispProfile : Option String
  chainIntact : Bool
  errors : List String
  warnings : List String
  verifiedAt : Option Nat
deriving DecidableEq

/-- Client options read by the verification paths.  The options apiEndpoint
and offlineMode are stored by the constructor but not read by the
verification sequence, so only strictMode is modelled. -/
structure ClientOptions where
  strictMode : Bool
deriving DecidableEq

/-- Model of the private helper that creates the empty pending result. -/
def createEmptyResult : VerificationResult where
  verified := false
  status := .PENDING
  documentHash := none
  virtueReceipt := none
  governanceLevel := none
  ispProfile := none
  chainIntact := false
  errors := []
  warnings := []
  verifiedAt := none

/-- JavaScript truthiness of an optional string field: present and not the
empty string. -/
def truthy : Option String → Bool
  | none => false
  | some s => !(s == "")

/-- Character class of the case insensitive hash format pattern. -/
def isHexChar (c : Char) : Bool :=
  ('0' ≤ c && c ≤ '9') || ('a' ≤ c && c ≤ 'f') || ('A' ≤ c && c ≤ 'F')

/-- Test of the anchored 64 character case insensitive hex pattern. -/
def isHex64 (s : String) : Bool :=
  s.length == 64 && s.data.all isHexChar

/-- Governance level enumeration values. -/
def governanceLevels : List String := ["HIGH", "MEDIUM", "LOW"]

/-- Required field loop of the receipt validator, unrolled over the fixed
list of field names in source order. -/
def missingFieldErrors (r : VirtueReceipt) : List String :=
  (if truthy r.document_id then [] else ["Missing required field: document_id"])
    ++ (if truthy r.hash then [] else ["Missing required field: hash"])
    ++ (if truthy r.timestamp then [] else ["Missing required field: timestamp"])
    ++ (if truthy r.governance_level then []
        else ["Missing required field: governance_level"])

/-- Model of the field checks of the private receipt validator: required
fields, hash format, governance level enumeration and timestamp parse, in
source order.  The model is pure, so the input receipt is unchanged by
construction. -/
def validateVirtueReceiptFields (dateOK : String → Bool) (r : VirtueReceipt) :
    List String :=
  missingFieldErrors r
    ++ (if truthy r.hash && !isHex64 (r.hash.getD "") then
          ["Invalid hash format (expected SHA-256)"]
        else [])
    ++ (if truthy r.governance_level
          && !(governanceLevels.contains (r.governance_level.getD "")) then
          ["Invalid governance level: " ++ r.governance_level.getD ""]
        else [])
    ++ (if truthy r.timestamp && !(dateOK (r.timestamp.getD "")) then
          ["Invalid timestamp format"]
        else [])

/-- Model of the private receipt validator including the null guard. -/
def validateVirtueReceipt (dateOK : String → Bool) :
    Option VirtueReceipt → List String
  | none => ["Virtue Receipt is null or undefined"]
  | some r => validateVirtueReceiptFields dateOK r

/-- Conversion of an optional field to the JSON value placed in the chain
payload object literal. -/
def jsField : Option String → JSONValue
  | none => .undef
  | some s => .str s

/-- Canonical chain payload built from the fixed four receipt core fields. -/
def chainPayload (receipt : VirtueReceipt) : String :=
  canonicalizeJSON (.obj
    [("document_id", jsField receipt.document_id),
     ("hash", jsField receipt.hash),
     ("timestamp", jsField receipt.timestamp),
     ("governance_level", jsField receipt.governance_level)])

/-- Model of the private chain integrity check: missing chain data is
trivially intact, otherwise the chain link is recomputed and compared. -/
def verifyChainIntegrity (H : String → String) (receipt : VirtueReceipt) : Bool :=
  if !truthy receipt.prev_hash || !truthy receipt.chain_hash then true
  else
    verifyChainLink H (receipt.prev_hash.getD "") (chainPayload receipt)
      (receipt.chain_hash.getD "")

/-- Model of verifyBuffer.  The catch clause of the source has no reachable
throw site in the modelled pure computation, so it does not appear.  The
two early returns leave verifiedAt unassigned, mirroring the returns that
bypass the final assignment in the source. -/
def verifyBuffer (H : String → String) (dateOK : String → Bool)
    (_opts : ClientOptions) (buffer : String)
    (virtueReceipt : Option VirtueReceipt) (now : Nat) : VerificationResult :=
  let docHash := H buffer
  let result1 :=
    { createEmptyResult with documentHash := some docHash,
                             virtueReceipt := virtueReceipt }
  let errs := validateVirtueReceipt dateOK virtueReceipt
  if errs.length > 0 then
    { result1 with errors := errs, status := .INVALID }
  else
    match virtueReceipt with
    | none =>
        -- unreachable: the validator always reports a null receipt
        { result1 with errors := errs, status := .INVALID }
    | some receipt =>
        if receipt.hash = some docHash then
          { result1 with
              chainIntact := verifyChainIntegrity H receipt,
              verified := true,
              status := .VERIFIED,
              governanceLevel := receipt.governance_level,
              ispProfile := receipt.isp_profile,
              verifiedAt := some now }
        else
          { result1 with
              errors := ["Document hash does not match Virtue Receipt"],
              status := .INVALID }

/-- Model of verifyDocument.  File reading and metadata extraction are the
external collaborators of the spec: the read outcome is passed as an
Except value and extraction as a function from the buffer to an optional
metadata record whose receipt field may itself be absent.  A read failure
is the one reachable throw site and lands in the catch clause, which is
the only early path that assigns verifiedAt. -/
def verifyDocument (H : String → String) (dateOK : String → Bool)
    (opts : ClientOptions) (readResult : Except String String)
    (extractMetadata : String → Option (Option VirtueReceipt)) (now : Nat) :
    VerificationResult :=
  match readResult with
  | .error msg =>
      { createEmptyResult with
          status := .ERROR,
          errors := ["Verification error: " ++ msg],
          verifiedAt := some now }
  | .ok fileBuffer =>
      let docHash := H fileBuffer
      let result1 := { createEmptyResult with documentHash := some docHash }
      match extractMetadata fileBuffer with
      | none =>
          { result1 with
              status := .NO_GOVERNANCE,
              warnings := ["No WINDI governance metadata found in document"] }
      | some virtueReceipt =>
          let result2 := { result1 with virtueReceipt := virtueReceipt }
          let errs := validateVirtueReceipt dateOK virtueReceipt
          if errs.length > 0 then
            { result2 with errors := errs, status := .INVALID }
          else
            match virtueReceipt with
            | none =>
                -- unreachable: the validator always reports a null receipt
                { result2 with errors := errs, status := .INVALID }
            | some receipt =>
                if receipt.hash = some docHash then
                  let ci := verifyChainIntegrity H receipt
                  let result3 := { result2 with chainIntact := ci }
                  if ci then
                    { result3 with
                        verified := true,
                        status := .VERIFIED,
                        governanceLevel := receipt.governance_level,
                        ispProfile := receipt.isp_profile,
                        verifiedAt := some now }
                  else if opts.strictMode then
                    { result3 with
                        errors := ["Chain integrity verification failed"],
                        status := .INVALID }
                  else
                    { result3 with
                        errors := ["Chain integrity verification failed"],
                        warnings :=
                          ["Chain verification failed but document hash valid"],
                        verified := true,
                        status := .VERIFIED,
                        governanceLevel := receipt.governance_level,
                        ispProfile := receipt.isp_profile,
                        verifiedAt := some now }
                else
                  { result2 with
                      errors := ["Document hash does not match Virtue Receipt"],
                      status := .INVALID }

/-- Whitespace class of the JavaScript patterns used by the canonicalizers,
restricted to the whitespace characters relevant to the claims; the
JavaScript class also contains further Unicode space characters. -/
def isJsWhitespace (c : Char) : Bool :=
  c == ' ' || c == '\t' || c == '\n' || c == '\r' || c == '\x0b' ||
    c == '\x0c' || c == ' '

/-- Replacement of every maximal whitespace run by one space character, as
the global whitespace pattern replacement does on a trimmed string. -/
def collapseRuns : List Char → List Char
  | [] => []
  | [c] => if isJsWhitespace c then [' '] else [c]
  | c :: d :: rest =>
      if isJsWhitespace c && isJsWhitespace d then collapseRuns (d :: rest)
      else (if isJsWhitespace c then ' ' else c) :: collapseRuns (d :: rest)

/-- Removal of leading and trailing whitespace. -/
def trimChars (l : List Char) : List Char :=
  ((l.dropWhile isJsWhitespace).reverse.dropWhile isJsWhitespace).reverse

/-- Model of canonText: trim, then collapse inner whitespace runs. -/
def canonText (s : String) : String :=
  String.mk (collapseRuns (trimChars s.data))

/-- Currency symbol and whitespace class stripped by canonAmount2. -/
def isCurrencyOrWs (c : Char) : Bool :=
  c == '€' || c == '$' || c == '£' || c == '¥' || isJsWhitespace c

/-- Removal of currency symbols and whitespace. -/
def stripCurrencyWs (s : String) : String :=
  String.mk (s.data.filter (fun c => !isCurrencyOrWs c))

/-- Model of String.prototype.lastIndexOf for a single character: the index
of the last occurrence, or minus one when absent. -/
def lastIndexOfChar (s : String) (c : Char) : Int :=
  match s.data.reverse.findIdx? (· == c) with
  | none => -1
  | some i => ((s.data.length - 1 - i : Nat) : Int)

/-- Replacement of only the first occurrence of a character, as the string
form of String.prototype.replace does. -/
def replaceFirstChar : List Char → Char → Char → List Char
  | [], _, _ => []
  | c :: rest, old, new =>
      if c == old then new :: rest else c :: replaceFirstChar rest old new

/-- Numeric value of a digit list. -/
def digitsVal (l : List Char) : Nat :=
  l.foldl (fun acc c => acc * 10 + (c.toNat - 48)) 0

/-- Power of ten over the naturals. -/
def pow10 : Nat → Nat
  | 0 => 1
  | n + 1 => 10 * pow10 n

/-- Model of Number.parseFloat on the strings produced by the amount
canonicalizers, as an exact scaled integer: a result (n, d) denotes the
rational n divided by ten to the d.  The source computes with binary
floating point; the claims only exercise values that both arithmetics
represent exactly.  Parsing takes the longest valid prefix of an optional
sign, digits with an optional fraction, and an optional exponent, and
fails when no digit is found; the Infinity literal is not modelled. -/
def parseFloatScaled (s : String) : Option (Int × Nat) :=
  let cs := s.data
  let signAndRest : Int × List Char :=
    match cs with
    | '+' :: rest => (1, rest)
    | '-' :: rest => (-1, rest)
    | _ => (1, cs)
  let sgn := signAndRest.1
  let cs1 := signAndRest.2
  let intDigits := cs1.takeWhile Char.isDigit
  let cs2 := cs1.dropWhile Char.isDigit
  let fracAndRest : List Char × List Char :=
    match cs2 with
    | '.' :: rest => (rest.takeWhile Char.isDigit, rest.dropWhile Char.isDigit)
    | _ => ([], cs2)
  let fracDigits := fracAndRest.1
  let cs3 := fracAndRest.2
  if intDigits.isEmpty && fracDigits.isEmpty then none
  else
    let expVal : Int :=
      match cs3 with
      | e :: rest =>
          if e == 'e' || e == 'E' then
            let esignAndRest : Int × List Char :=
              match rest with
              | '+' :: r => (1, r)
              | '-' :: r => (-1, r)
              | _ => (1, rest)
            let eDigits := esignAndRest.2.takeWhile Char.isDigit
            if eDigits.isEmpty then 0 else esignAndRest.1 * (digitsVal eDigits : Int)
          else 0
      | [] => 0
    let mant : Int := sgn * (digitsVal (intDigits ++ fracDigits) : Int)
    if 0 ≤ expVal then some (mant * (pow10 expVal.toNat : Int), fracDigits.length)
    else some (mant, fracDigits.length + (-expVal).toNat)

/-- Model of Math.round applied to the scaled value (n, d) times one
hundred: rounding half toward positive infinity, computed exactly by a
floor division. -/
def centsOf (n : Int) (d : Nat) : Int :=
  Int.fdiv (2 * (100 * n) + (pow10 d : Int)) (2 * (pow10 d : Int))

/-- Two digit zero padded rendering of a value below one hundred. -/
def pad2 (n : Nat) : String :=
  if n < 10 then "0" ++ toString n else toString n

/-- Rendering of a cent count as the source toFixed(2) call renders the
cents divided by one hundred. -/
def renderCents (cents : Int) : String :=
  let m := cents.natAbs
  (if cents < 0 then "-" else "") ++ toString (m / 100) ++ "." ++ pad2 (m % 100)

/-- Model of canonAmount2 from the examples side canonicalization module:
trim and collapse, strip currency symbols and whitespace, choose the
decimal mark by the rightmost of comma and dot, normalize, parse and round
half up to two decimals. -/
def canonAmount2 (amount : String) : String :=
  let raw := canonText amount
  if raw = "" then "0.00"
  else
    let raw2 := stripCurrencyWs raw
    if raw2 = "" then "0.00"
    else
      let lastComma := lastIndexOfChar raw2 ','
      let lastDot := lastIndexOfChar raw2 '.'
      let normalized :=
        if lastComma > lastDot then
          String.mk (replaceFirstChar (raw2.data.filter (· != '.')) ',' '.')
        else String.mk (raw2.data.filter (· != ','))
      match parseFloatScaled normalized with
      | none => "0.00"
      | some nd => renderCents (centsOf nd.1 nd.2)

/-- Model of canonAmount2 from the src canonicalization module: the same
trim, parse and round pipeline, but with no currency stripping and with a
fixed European convention that removes every dot and turns the first comma
into the decimal mark. -/
def canonAmount2_simple (amount : String) : String :=
  let raw := canonText amount
  if raw = "" then "0.00"
  else
    let normalized := String.mk (replaceFirstChar (raw.data.filter (· != '.')) ',' '.')
    match parseFloatScaled normalized with
    | none => "0.00"
    | some nd => renderCents (centsOf nd.1 nd.2)

/-- Modelled from the claim text, for comparison with the source function:
strip currency symbols and whitespace, decide the decimal mark by
comparing the rightmost positions of comma and dot, remove the thousands
separators, parse, and round half up to two decimals; empty input yields
the fixed zero amount. -/
def canonAmount2Described (amount : String) : String :=
  let raw := stripCurrencyWs amount
  if raw = "" then "0.00"
  else
    let lastComma := lastIndexOfChar raw ','
    let lastDot := lastIndexOfChar raw '.'
    let normalized :=
      if lastComma > lastDot then
        String.mk (replaceFirstChar (raw.data.filter (· != '.')) ',' '.')
      else String.mk (raw.data.filter (· != ','))
    match parseFloatScaled normalized with
    | none => "0.00"
    | some nd => renderCents (centsOf nd.1 nd.2)

theorem string_ext {s t : String} (h : s.data = t.data) : s = t :=
  congrArg String.mk h

theorem canonPairs_eq_map :
    ∀ l : List (String × JSONValue),
      canonPairs l = l.map (fun p => (p.1, canonicalizeJSON p.2))
  | [] => rfl
  | (k, v) :: rest => by
      simp [canonPairs, canonPairs_eq_map rest]

theorem canonPairs_map_fst (l : List (String × JSONValue)) :
    (canonPairs l).map Prod.fst = l.map Prod.fst := by
  rw [canonPairs_eq_map, List.map_map]
  rfl

/-- Strict version of the key order, used to make sorted entry lists with
duplicate free keys unique. -/
def pairKeyLT (p q : String × String) : Prop := p.1.data < q.1.data

instance : IsAntisymm (String × String) pairKeyLT :=
  ⟨fun _ _ h1 h2 => absurd (lt_trans h1 h2) (lt_irrefl _)⟩

theorem sorted_pairKeyLT {L : List (String × String)}
    (hs : L.Sorted pairKeyLE) (hn : (L.map Prod.fst).Nodup) :
    L.Sorted pairKeyLT := by
  induction L with
  | nil => exact List.sorted_nil
  | cons a t ih =>
      rw [List.sorted_cons] at hs
      rw [List.map_cons, List.nodup_cons] at hn
      rw [List.sorted_cons]
      refine ⟨fun b hb => ?_, ih hs.2 hn.2⟩
      have hle : pairKeyLE a b := hs.1 b hb
      have hne : a.1.data ≠ b.1.data := by
        intro hd
        exact hn.1 (by rw [string_ext hd]; exact List.mem_map_of_mem Prod.fst hb)
      exact lt_of_le_of_ne hle hne

theorem sortPairs_sorted (L : List (String × String)) :
    (sortPairs L).Sorted pairKeyLE :=
  List.sorted_insertionSort pairKeyLE L

theorem sortPairs_eq_of_perm {X Y : List (String × String)} (hperm : X.Perm Y)
    (hX : (X.map Prod.fst).Nodup) : sortPairs X = sortPairs Y := by
  have hsX : ((sortPairs X).map Prod.fst).Nodup :=
    ((List.perm_insertionSort pairKeyLE X).map Prod.fst).nodup_iff.mpr hX
  have hY : (Y.map Prod.fst).Nodup := (hperm.map Prod.fst).nodup_iff.mp hX
  have hsY : ((sortPairs Y).map Prod.fst).Nodup :=
    ((List.perm_insertionSort pairKeyLE Y).map Prod.fst).nodup_iff.mpr hY
  have hps : (sortPairs X).Perm (sortPairs Y) :=
    (List.perm_insertionSort pairKeyLE X).trans
      (hperm.trans (List.perm_insertionSort pairKeyLE Y).symm)
  exact List.eq_of_perm_of_sorted hps
    (sorted_pairKeyLT (sortPairs_sorted X) hsX)
    (sorted_pairKeyLT (sortPairs_sorted Y) hsY)

mutual

/-- Structural equality of JSON values up to reordering of object entries
at any depth: scalars must be equal, arrays match pointwise in order, and
objects with duplicate free key lists match as permutations of pointwise
matching entry lists. -/
inductive EquivJSON : JSONValue → JSONValue → Prop
  | null : EquivJSON .null .null
  | undef : EquivJSON .undef .undef
  | bool (b : Bool) : EquivJSON (.bool b) (.bool b)
  | num (n : Int) : EquivJSON (.num n) (.num n)
  | str (s : String) : EquivJSON (.str s) (.str s)
  | arr {l1 l2 : List JSONValue} :
      EquivElems l1 l2 → EquivJSON (.arr l1) (.arr l2)
  | obj {l1 l2 l2p : List (String × JSONValue)} :
      (l1.map Prod.fst).Nodup → (l2.map Prod.fst).Nodup →
      EquivPairs l1 l2p → l2p.Perm l2 → EquivJSON (.obj l1) (.obj l2)

/-- Pointwise equivalence of array element lists. -/
inductive EquivElems : List JSONValue → List JSONValue → Prop
  | nil : EquivElems [] []
  | cons {v w : JSONValue} {l1 l2 : List JSONValue} :
      EquivJSON v w → EquivElems l1 l2 → EquivElems (v :: l1) (w :: l2)

/-- Pointwise equivalence of object entry lists: equal keys in equal
positions with equivalent values. -/
inductive EquivPairs :
    List (String × JSONValue) → List (String × JSONValue) → Prop
  | nil : EquivPairs [] []
  | cons (k : String) {v w : JSONValue} {l1 l2 : List (String × JSONValue)} :
      EquivJSON v w → EquivPairs l1 l2 → EquivPairs ((k, v) :: l1) ((k, w) :: l2)

end

mutual

theorem equivJSON_canon :
    ∀ {v1 v2 : JSONValue}, EquivJSON v1 v2 →
      canonicalizeJSON v1 = canonicalizeJSON v2
  | _, _, .null => rfl
  | _, _, .undef => rfl
  | _, _, .bool _ => rfl
  | _, _, .num _ => rfl
  | _, _, .str _ => rfl
  | _, _, .arr he => by
      simp only [canonicalizeJSON]
      rw [equivElems_canon he]
  | _, _, @EquivJSON.obj l1 l2 l2p hn1 hn2 hp hperm => by
      simp only [canonicalizeJSON]
      have e1 : canonPairs l1 = canonPairs l2p := equivPairs_canon hp
      have e2 : (canonPairs l2p).Perm (canonPairs l2) := by
        rw [canonPairs_eq_map, canonPairs_eq_map]
        exact hperm.map _
      have hx : (canonPairs l1).Perm (canonPairs l2) := e1 ▸ e2
      have hn1p : ((canonPairs l1).map Prod.fst).Nodup := by
        rw [canonPairs_map_fst]
        exact hn1
      rw [sortPairs_eq_of_perm hx hn1p]

theorem equivElems_canon :
    ∀ {l1 l2 : List JSONValue}, EquivElems l1 l2 → canonElems l1 = canonElems l2
  | _, _, .nil => rfl
  | _, _, .cons hv hl => by
      simp only [canonElems]
      rw [equivJSON_canon hv, equivElems_canon hl]

theorem equivPairs_canon :
    ∀ {l1 l2 : List (String × JSONValue)}, EquivPairs l1 l2 →
      canonPairs l1 = canonPairs l2
  | _, _, .nil => rfl
  | _, _, .cons k hv hl => by
      simp only [canonPairs]
      rw [equivJSON_canon hv, equivPairs_canon hl]

end

theorem ws_not_kept {c : Char} (h : isJsWhitespace c = true) :
    (!isCurrencyOrWs c) = false := by
  simp [isCurrencyOrWs, h]

theorem filter_keep_collapseRuns :
    ∀ l : List Char,
      (collapseRuns l).filter (fun c => !isCurrencyOrWs c) =
        l.filter (fun c => !isCurrencyOrWs c)
  | [] => rfl
  | [c] => by
      by_cases hc : isJsWhitespace c
      · simp [collapseRuns, hc, List.filter_cons, ws_not_kept hc,
          ws_not_kept (show isJsWhitespace ' ' = true by decide)]
      · simp [collapseRuns, hc]
  | c :: d :: rest => by
      by_cases hc : isJsWhitespace c
      · by_cases hd : isJsWhitespace d
        · simp [collapseRuns, hc, hd, List.filter_cons, ws_not_kept hc,
            filter_keep_collapseRuns (d :: rest)]
        · simp [collapseRuns, hc, hd, List.filter_cons, ws_not_kept hc,
            ws_not_kept (show isJsWhitespace ' ' = true by decide),
            filter_keep_collapseRuns (d :: rest)]
      · by_cases hd : isJsWhitespace d
        · simp [collapseRuns, hc, hd, List.filter_cons,
            filter_keep_collapseRuns (d :: rest)]
        · simp [collapseRuns, hc, hd, List.filter_cons,
            filter_keep_collapseRuns (d :: rest)]

theorem filter_keep_dropWhile :
    ∀ l : List Char,
      (l.dropWhile isJsWhitespace).filter (fun c => !isCurrencyOrWs c) =
        l.filter (fun c => !isCurrencyOrWs c)
  | [] => rfl
  | c :: rest => by
      by_cases hc : isJsWhitespace c
      · simp [List.dropWhile_cons, hc, List.filter_cons, ws_not_kept hc,
          filter_keep_dropWhile rest]
      · simp [List.dropWhile_cons, hc]

theorem filter_keep_trimChars (l : List Char) :
    (trimChars l).filter (fun c => !isCurrencyOrWs c) =
      l.filter (fun c => !isCurrencyOrWs c) := by
  unfold trimChars
  rw [List.filter_reverse, filter_keep_dropWhile, List.filter_reverse,
    List.reverse_reverse, filter_keep_dropWhile]

theorem stripCurrencyWs_canonText (s : String) :
    stripCurrencyWs (canonText s) = stripCurrencyWs s := by
  unfold stripCurrencyWs canonText
  rw [show (String.mk (collapseRuns (trimChars s.data))).data
        = collapseRuns (trimChars s.data) from rfl,
    filter_keep_collapseRuns, filter_keep_trimChars]

theorem collapseRuns_ne_nil : ∀ l : List Char, l ≠ [] → collapseRuns l ≠ []
  | [c], _ => by
      by_cases hc : isJsWhitespace c <;> simp [collapseRuns, hc]
  | c :: d :: rest, _ => by
      by_cases hc : isJsWhitespace c <;> by_cases hd : isJsWhitespace d <;>
        simp [collapseRuns, hc, hd, collapseRuns_ne_nil (d :: rest) (by simp)]

theorem canonText_empty_strip {s : String} (h : canonText s = "") :
    stripCurrencyWs s = "" := by
  have hdata : collapseRuns (trimChars s.data) = [] := congrArg String.data h
  have htrim : trimChars s.data = [] := by
    by_contra hne
    exact collapseRuns_ne_nil (trimChars s.data) hne hdata
  have : s.data.filter (fun c => !isCurrencyOrWs c) = [] := by
    rw [← filter_keep_trimChars, htrim]
    rfl
  unfold stripCurrencyWs
  rw [this]

theorem canonAmount2_eq_described (s : String) :
    canonAmount2 s = canonAmount2Described s := by
  by_cases h0 : canonText s = ""
  · have h1 : stripCurrencyWs s = "" := canonText_empty_strip h0
    simp [canonAmount2, canonAmount2Described, h0, h1]
  · simp only [canonAmount2, canonAmount2Described, if_neg h0,
      stripCurrencyWs_canonText]

theorem invalidGov_ne_missing (gl f : String) :
    ("Invalid governance level: " ++ gl) ≠ ("Missing required field: " ++ f) := by
  intro h
  have h2 : ("Invalid governance level: " ++ gl).data
      = ("Missing required field: " ++ f).data := congrArg String.data h
  rw [String.data_append, String.data_append] at h2
  rw [show ("Invalid governance level: " : String).data
        = 'I' :: ("nvalid governance level: " : String).data from rfl,
    show ("Missing required field: " : String).data
        = 'M' :: ("issing required field: " : String).data from rfl] at h2
  simp at h2

/-- Sixty four repetitions of the letter a, a well formed digest value. -/
def aHash : String := String.mk (List.replicate 64 'a')

/-- Sixty four repetitions of the letter b, a well formed digest value
different from aHash. -/
def bHash : String := String.mk (List.replicate 64 'b')

/-- Constant digest function used to instantiate the hash parameter in
concrete witnesses. -/
def constHashA : String → String := fun _ => aHash

/-- Date parser stub accepting every timestamp, used in witnesses for the
engine specific Date constructor. -/
def alwaysDate : String → Bool := fun _ => true

/-- Injective tagging function used as the hash parameter of concrete
Merkle computations. -/
def tagHash : String → String := fun s => "#" ++ s

/-- Receipt with a missing document identifier and a well formed hash that
differs from the computed digest of the buffer doc under constHashA. -/
def receiptNoId : VirtueReceipt where
  document_id := none
  hash := some bHash
  prev_hash := none
  chain_hash := none
  timestamp := some "2025-01-01T00:00:00Z"
  governance_level := some "HIGH"
  isp_profile := none

/-- Structurally valid receipt with matching content hash and a present but
incorrect chain hash under constHashA. -/
def receiptBadChain : VirtueReceipt where
  document_id := some "doc-1"
  hash := some aHash
  prev_hash := some "p"
  chain_hash := some bHash
  timestamp := some "2025-01-01T00:00:00Z"
  governance_level := some "HIGH"
  isp_profile := none

/-- Structurally valid receipt with matching content hash and no chain
data. -/
def receiptNoChain : VirtueReceipt where
  document_id := some "doc-1"
  hash := some aHash
  prev_hash := none
  chain_hash := none
  timestamp := some "2025-01-01T00:00:00Z"
  governance_level := some "HIGH"
  isp_profile := none

/-- Structurally valid receipt with chain data whose content hash differs
from the digest computed by constHashA. -/
def receiptWrongHash : VirtueReceipt where
  document_id := some "doc-1"
  hash := some bHash
  prev_hash := some "p"
  chain_hash := some bHash
  timestamp := some "2025-01-01T00:00:00Z"
  governance_level := some "HIGH"
  isp_profile := none

/-- Claim C9 counterexample: the genesis sentinel constant is an all zero
string whose length is 64, not 68 as the claim states. -/
theorem genesisHash_length_not_68 :
    GENESIS_HASH.data.all (· == '0') = true
      ∧ GENESIS_HASH.length = 64
      ∧ ¬ GENESIS_HASH.length = 68 := by decide

/-- Claim C9 (amended): the genesis sentinel constant used as the first
previous hash of a chain is the all zero string of 64 characters. -/
theorem genesisHash_64_zeros :
    GENESIS_HASH = String.mk (List.replicate 64 '0') := by decide

/-- Claim C5 counterexample: with an empty string as the middle of three
leaves, the verifier pairs the first leaf with itself, because the
JavaScript fallback treats a falsy right neighbour as missing; the root it
accepts therefore differs from the claimed formula applied to the leaves. -/
theorem merkleRoot_empty_leaf_breaks_formula :
    verifyMerkleRoot tagHash ["x", "", "y"] "##xx#yy" = true
      ∧ "##xx#yy" ≠ tagHash (tagHash ("x" ++ "") ++ tagHash ("y" ++ "y")) := by
  decide

/-- Claim C5 (amended): the Merkle verifier rejects the empty leaf list for
every expected root; accepts a single leaf exactly when it equals the
expected root with no hashing applied; and for three leaves whose middle
leaf is not the empty string, under a digest function that never returns
the empty string on the relevant pair, accepts exactly the root obtained
by duplicating the last leaf as its own partner. -/
theorem merkleRoot_spec (H : String → String) (a b c root x : String)
    (hb : b ≠ "") (hc : H (c ++ c) ≠ "") :
    verifyMerkleRoot H [] root = false
      ∧ (verifyMerkleRoot H [x] root = true ↔ x = root)
      ∧ (verifyMerkleRoot H [a, b, c] root = true
          ↔ root = H (H (a ++ b) ++ H (c ++ c))) := by
  refine ⟨rfl, ?_, ?_⟩
  · simp [verifyMerkleRoot]
  · have hb2 : (b == "") = false := by simpa using hb
    have hc2 : (H (c ++ c) == "") = false := by simpa using hc
    simp [verifyMerkleRoot, merkleIter, merkleIterN, merkleLevel, hb2, hc2]
    exact eq_comm

/-- Claim C5 witness: the amended statement evaluated at concrete leaves
under the tagging digest. -/
theorem merkleRoot_spec_witness :
    ("b" : String) ≠ ""
      ∧ tagHash ("c" ++ "c") ≠ ""
      ∧ (verifyMerkleRoot tagHash [] "r" = false
          ∧ (verifyMerkleRoot tagHash ["x"] "r" = true ↔ "x" = "r")
          ∧ (verifyMerkleRoot tagHash ["a", "b", "c"] "r" = true
              ↔ "r" = tagHash (tagHash ("a" ++ "b") ++ tagHash ("c" ++ "c")))) :=
  ⟨by decide, by decide,
    merkleRoot_spec tagHash "a" "b" "c" "r" "x" (by decide) (by decide)⟩

/-- Claim C7 counterexample: the canonAmount2 of the src canonicalization
module has no currency stripping and no separator detection, so on the US
formatted input of the claim it treats the comma as the decimal mark and
produces a different result, and on the euro tagged input it fails to
parse. -/
theorem canonAmount2_simple_diverges :
    canonAmount2_simple "1,234.50" = "1.23"
      ∧ canonAmount2_simple "1,234.50" ≠ "1234.50"
      ∧ canonAmount2_simple "€ 1.234,50" = "0.00" := by decide

/-- Claim C7 (amended): the canonAmount2 of the examples side
canonicalization module behaves as the claim describes: it agrees with the
described pipeline of stripping currency symbols and whitespace, choosing
the decimal mark by the rightmost of comma and dot, and rounding half up
to two decimals, and it maps the three stated inputs to the stated
outputs. -/
theorem canonAmount2_spec :
    (∀ s, canonAmount2 s = canonAmount2Described s)
      ∧ canonAmount2 "€ 1.234,50" = "1234.50"
      ∧ canonAmount2 "1,234.50" = "1234.50"
      ∧ canonAmount2 "" = "0.00" :=
  ⟨canonAmount2_eq_described, by decide, by decide, by decide⟩

/-- Claim C4 (code bug evaluation): the NO_GOVERNANCE exit of
verifyDocument and the INVALID early exit of verifyBuffer return with the
completion timestamp still unset, because the early returns inside the try
block bypass the final assignment; the read failure path is caught, mapped
to ERROR with the message recorded, and does set the timestamp, as does
the full verification path. -/
theorem verifiedAt_unset_on_early_exits :
    ((verifyDocument constHashA alwaysDate ⟨false⟩ (.ok "doc")
        (fun _ => none) 7).status = .NO_GOVERNANCE
      ∧ (verifyDocument constHashA alwaysDate ⟨false⟩ (.ok "doc")
          (fun _ => none) 7).verifiedAt = none
      ∧ (verifyDocument constHashA alwaysDate ⟨false⟩ (.ok "doc")
          (fun _ => none) 7).errors = [])
    ∧ ((verifyDocument constHashA alwaysDate ⟨false⟩ (.error "boom")
          (fun _ => none) 7).status = .ERROR
      ∧ (verifyDocument constHashA alwaysDate ⟨false⟩ (.error "boom")
          (fun _ => none) 7).errors = ["Verification error: boom"]
      ∧ (verifyDocument constHashA alwaysDate ⟨false⟩ (.error "boom")
          (fun _ => none) 7).verifiedAt = some 7)
    ∧ ((verifyBuffer constHashA alwaysDate ⟨false⟩ "doc"
          (some receiptNoId) 7).status = .INVALID
      ∧ (verifyBuffer constHashA alwaysDate ⟨false⟩ "doc"
          (some receiptNoId) 7).verifiedAt = none)
    ∧ ((verifyBuffer constHashA alwaysDate ⟨false⟩ "doc"
          (some receiptNoChain) 7).status = .VERIFIED
      ∧ (verifyBuffer constHashA alwaysDate ⟨false⟩ "doc"
          (some receiptNoChain) 7).verifiedAt = some 7) := by
  decide

/-- Claim C1 counterexample: a structurally invalid receipt whose content
hash differs from the computed digest yields INVALID, but the hash
mismatch error is absent from the error list, refuting the claim quantified
over every receipt. -/
theorem hashMismatch_error_absent_when_struct_invalid :
    receiptNoId.hash ≠ some (constHashA "doc")
      ∧ (verifyBuffer constHashA alwaysDate ⟨false⟩ "doc"
          (some receiptNoId) 7).status = .INVALID
      ∧ "Document hash does not match Virtue Receipt"
          ∉ (verifyBuffer constHashA alwaysDate ⟨false⟩ "doc"
              (some receiptNoId) 7).errors := by
  decide

/-- Claim C1 (amended): for every structurally valid receipt whose content
hash differs from the computed document digest, verifyBuffer and
verifyDocument return INVALID with the hash mismatch error recorded,
independent of the chain fields and of the strict option. -/
theorem hashMismatch_invalid (H : String → String) (dateOK : String → Bool)
    (opts : ClientOptions) (buffer : String) (r : VirtueReceipt) (now : Nat)
    (extract : String → Option (Option VirtueReceipt))
    (hval : validateVirtueReceiptFields dateOK r = [])
    (hex : extract buffer = some (some r))
    (hne : r.hash ≠ some (H buffer)) :
    ((verifyBuffer H dateOK opts buffer (some r) now).status = .INVALID
      ∧ "Document hash does not match Virtue Receipt"
          ∈ (verifyBuffer H dateOK opts buffer (some r) now).errors
      ∧ (verifyBuffer H dateOK opts buffer (some r) now).verified = false)
    ∧ ((verifyDocument H dateOK opts (.ok buffer) extract now).status = .INVALID
      ∧ "Document hash does not match Virtue Receipt"
          ∈ (verifyDocument H dateOK opts (.ok buffer) extract now).errors
      ∧ (verifyDocument H dateOK opts (.ok buffer) extract now).verified
          = false) := by
  constructor
  · simp [verifyBuffer, validateVirtueReceipt, hval, hne, createEmptyResult]
  · simp [verifyDocument, hex, validateVirtueReceipt, hval, hne,
      createEmptyResult]

/-- Claim C1 witness: the amended statement evaluated at a concrete valid
receipt whose hash field differs from the computed digest. -/
theorem hashMismatch_invalid_witness :
    validateVirtueReceiptFields alwaysDate receiptWrongHash = []
      ∧ receiptWrongHash.hash ≠ some (constHashA "doc")
      ∧ (((verifyBuffer constHashA alwaysDate ⟨false⟩ "doc"
            (some receiptWrongHash) 7).status = .INVALID
          ∧ "Document hash does not match Virtue Receipt"
              ∈ (verifyBuffer constHashA alwaysDate ⟨false⟩ "doc"
                  (some receiptWrongHash) 7).errors
          ∧ (verifyBuffer constHashA alwaysDate ⟨false⟩ "doc"
              (some receiptWrongHash) 7).verified = false)
        ∧ ((verifyDocument constHashA alwaysDate ⟨false⟩ (.ok "doc")
              (fun _ => some (some receiptWrongHash)) 7).status = .INVALID
          ∧ "Document hash does not match Virtue Receipt"
              ∈ (verifyDocument constHashA alwaysDate ⟨false⟩ (.ok "doc")
                  (fun _ => some (some receiptWrongHash)) 7).errors
          ∧ (verifyDocument constHashA alwaysDate ⟨false⟩ (.ok "doc")
              (fun _ => some (some receiptWrongHash)) 7).verified = false)) :=
  ⟨by decide, by decide,
    hashMismatch_invalid constHashA alwaysDate ⟨false⟩ "doc" receiptWrongHash 7
      (fun _ => some (some receiptWrongHash)) (by decide) rfl (by decide)⟩

/-- Claim C2 counterexample: verifyBuffer performs the chain check but
records no error and no warning and ignores the strict option: on a
structurally valid receipt with matching content hash and a present but
incorrect chain hash it returns VERIFIED with chainIntact false even in
strict configuration. -/
theorem chainFail_verifyBuffer_ignores_strict :
    verifyChainIntegrity constHashA receiptBadChain = false
      ∧ (verifyBuffer constHashA alwaysDate ⟨true⟩ "doc"
          (some receiptBadChain) 7).status = .VERIFIED
      ∧ (verifyBuffer constHashA alwaysDate ⟨true⟩ "doc"
          (some receiptBadChain) 7).verified = true
      ∧ (verifyBuffer constHashA alwaysDate ⟨true⟩ "doc"
          (some receiptBadChain) 7).chainIntact = false
      ∧ (verifyBuffer constHashA alwaysDate ⟨true⟩ "doc"
          (some receiptBadChain) 7).errors = []
      ∧ (verifyBuffer constHashA alwaysDate ⟨true⟩ "doc"
          (some receiptBadChain) 7).warnings = [] := by
  decide

/-- Claim C2 (amended): in verifyDocument, a structurally valid receipt
with matching content hash whose present chain hash fails verification
yields the chain error and INVALID in strict configuration, and VERIFIED
with chainIntact false, the error, and a warning in lenient configuration;
verifyBuffer instead records nothing for the failed chain check and
returns VERIFIED in both configurations. -/
theorem chainFail_strict_and_lenient (H : String → String)
    (dateOK : String → Bool) (buffer : String) (r : VirtueReceipt) (now : Nat)
    (extract : String → Option (Option VirtueReceipt))
    (hval : validateVirtueReceiptFields dateOK r = [])
    (hex : extract buffer = some (some r))
    (hhash : r.hash = some (H buffer))
    (hprev : truthy r.prev_hash = true)
    (hchain : truthy r.chain_hash = true)
    (hfail : verifyChainLink H (r.prev_hash.getD "") (chainPayload r)
        (r.chain_hash.getD "") = false) :
    ((verifyDocument H dateOK ⟨true⟩ (.ok buffer) extract now).status = .INVALID
      ∧ (verifyDocument H dateOK ⟨true⟩ (.ok buffer) extract now).verified = false
      ∧ "Chain integrity verification failed"
          ∈ (verifyDocument H dateOK ⟨true⟩ (.ok buffer) extract now).errors)
    ∧ ((verifyDocument H dateOK ⟨false⟩ (.ok buffer) extract now).status
          = .VERIFIED
      ∧ (verifyDocument H dateOK ⟨false⟩ (.ok buffer) extract now).verified = true
      ∧ (verifyDocument H dateOK ⟨false⟩ (.ok buffer) extract now).chainIntact
          = false
      ∧ "Chain integrity verification failed"
          ∈ (verifyDocument H dateOK ⟨false⟩ (.ok buffer) extract now).errors
      ∧ "Chain verification failed but document hash valid"
          ∈ (verifyDocument H dateOK ⟨false⟩ (.ok buffer) extract now).warnings) := by
  have hci : verifyChainIntegrity H r = false := by
    simp [verifyChainIntegrity, hprev, hchain, hfail]
  constructor
  · simp [verifyDocument, hex, validateVirtueReceipt, hval, hhash, hci,
      createEmptyResult]
  · simp [verifyDocument, hex, validateVirtueReceipt, hval, hhash, hci,
      createEmptyResult]

/-- Claim C2 witness: the amended statement evaluated at a concrete valid
receipt with a present but incorrect chain hash. -/
theorem chainFail_strict_and_lenient_witness :
    validateVirtueReceiptFields alwaysDate receiptBadChain = []
      ∧ receiptBadChain.hash = some (constHashA "doc")
      ∧ truthy receiptBadChain.prev_hash = true
      ∧ truthy receiptBadChain.chain_hash = true
      ∧ verifyChainLink constHashA (receiptBadChain.prev_hash.getD "")
          (chainPayload receiptBadChain) (receiptBadChain.chain_hash.getD "")
          = false
      ∧ (((verifyDocument constHashA alwaysDate ⟨true⟩ (.ok "doc")
            (fun _ => some (some receiptBadChain)) 7).status = .INVALID
          ∧ (verifyDocument constHashA alwaysDate ⟨true⟩ (.ok "doc")
              (fun _ => some (some receiptBadChain)) 7).verified = false
          ∧ "Chain integrity verification failed"
              ∈ (verifyDocument constHashA alwaysDate ⟨true⟩ (.ok "doc")
                  (fun _ => some (some receiptBadChain)) 7).errors)
        ∧ ((verifyDocument constHashA alwaysDate ⟨false⟩ (.ok "doc")
              (fun _ => some (some receiptBadChain)) 7).status = .VERIFIED
          ∧ (verifyDocument constHashA alwaysDate ⟨false⟩ (.ok "doc")
              (fun _ => some (some receiptBadChain)) 7).verified = true
          ∧ (verifyDocument constHashA alwaysDate ⟨false⟩ (.ok "doc")
              (fun _ => some (some receiptBadChain)) 7).chainIntact = false
          ∧ "Chain integrity verification failed"
              ∈ (verifyDocument constHashA alwaysDate ⟨false⟩ (.ok "doc")
                  (fun _ => some (some receiptBadChain)) 7).errors
          ∧ "Chain verification failed but document hash valid"
              ∈ (verifyDocument constHashA alwaysDate ⟨false⟩ (.ok "doc")
                  (fun _ => some (some receiptBadChain)) 7).warnings)) :=
  ⟨by decide, by decide, by decide, by decide, by decide,
    chainFail_strict_and_lenient constHashA alwaysDate "doc" receiptBadChain 7
      (fun _ => some (some receiptBadChain)) (by decide) rfl (by decide)
      (by decide) (by decide) (by decide)⟩

/-- Claim C3: a structurally valid receipt that carries neither a previous
hash nor a chain hash and whose content hash matches the computed digest
yields VERIFIED with chainIntact true in both orchestrators. -/
theorem noChainData_verified (H : String → String) (dateOK : String → Bool)
    (opts : ClientOptions) (buffer : String) (r : VirtueReceipt) (now : Nat)
    (extract : String → Option (Option VirtueReceipt))
    (hval : validateVirtueReceiptFields dateOK r = [])
    (hex : extract buffer = some (some r))
    (hhash : r.hash = some (H buffer))
    (hprev : r.prev_hash = none)
    (_hchain : r.chain_hash = none) :
    ((verifyBuffer H dateOK opts buffer (some r) now).status = .VERIFIED
      ∧ (verifyBuffer H dateOK opts buffer (some r) now).chainIntact = true
      ∧ (verifyBuffer H dateOK opts buffer (some r) now).verified = true)
    ∧ ((verifyDocument H dateOK opts (.ok buffer) extract now).status
          = .VERIFIED
      ∧ (verifyDocument H dateOK opts (.ok buffer) extract now).chainIntact
          = true
      ∧ (verifyDocument H dateOK opts (.ok buffer) extract now).verified
          = true) := by
  have hci : verifyChainIntegrity H r = true := by
    simp [verifyChainIntegrity, hprev, truthy]
  constructor
  · simp [verifyBuffer, validateVirtueReceipt, hval, hhash, hci,
      createEmptyResult]
  · simp [verifyDocument, hex, validateVirtueReceipt, hval, hhash, hci,
      createEmptyResult]

/-- Claim C3 witness: the statement evaluated at a concrete valid receipt
without chain data. -/
theorem noChainData_verified_witness :
    validateVirtueReceiptFields alwaysDate receiptNoChain = []
      ∧ receiptNoChain.hash = some (constHashA "doc")
      ∧ receiptNoChain.prev_hash = none
      ∧ receiptNoChain.chain_hash = none
      ∧ (((verifyBuffer constHashA alwaysDate ⟨false⟩ "doc"
            (some receiptNoChain) 7).status = .VERIFIED
          ∧ (verifyBuffer constHashA alwaysDate ⟨false⟩ "doc"
              (some receiptNoChain) 7).chainIntact = true
          ∧ (verifyBuffer constHashA alwaysDate ⟨false⟩ "doc"
              (some receiptNoChain) 7).verified = true)
        ∧ ((verifyDocument constHashA alwaysDate ⟨false⟩ (.ok "doc")
              (fun _ => some (some receiptNoChain)) 7).status = .VERIFIED
          ∧ (verifyDocument constHashA alwaysDate ⟨false⟩ (.ok "doc")
              (fun _ => some (some receiptNoChain)) 7).chainIntact = true
          ∧ (verifyDocument constHashA alwaysDate ⟨false⟩ (.ok "doc")
              (fun _ => some (some receiptNoChain)) 7).verified = true)) :=
  ⟨by decide, by decide, by decide, by decide,
    noChainData_verified constHashA alwaysDate ⟨false⟩ "doc" receiptNoChain 7
      (fun _ => some (some receiptNoChain)) (by decide) rfl (by decide) rfl rfl⟩

/-- Nested object value with entries written in one order. -/
def vOrder1 : JSONValue :=
  .obj [("b", .num 1), ("a", .obj [("d", .str "x"), ("c", .null)])]

/-- The same nested object value with the entries of both mappings written
in the other order. -/
def vOrder2 : JSONValue :=
  .obj [("a", .obj [("c", .null), ("d", .str "x")]), ("b", .num 1)]

/-- Claim C6: canonicalizeJSON maps values that are structurally equal up
to the order of mapping entries, at any nesting depth, to the same
canonical string. -/
theorem canonicalizeJSON_order_independent {v1 v2 : JSONValue}
    (h : EquivJSON v1 v2) : canonicalizeJSON v1 = canonicalizeJSON v2 :=
  equivJSON_canon h

/-- Claim C6 witness: two concrete nested objects differing only in entry
order at both depths canonicalize identically. -/
theorem canonicalizeJSON_order_independent_witness :
    EquivJSON vOrder1 vOrder2
      ∧ canonicalizeJSON vOrder1 = canonicalizeJSON vOrder2 := by
  have hInner :
      EquivJSON (.obj [("d", .str "x"), ("c", .null)])
        (.obj [("c", .null), ("d", .str "x")]) :=
    .obj (by decide) (by decide)
      (.cons "d" (.str "x") (.cons "c" .null .nil))
      (List.Perm.swap _ _ _)
  have h : EquivJSON vOrder1 vOrder2 :=
    .obj (by decide) (by decide)
      (.cons "b" (.num 1) (.cons "a" hInner .nil))
      (List.Perm.swap _ _ _)
  exact ⟨h, canonicalizeJSON_order_independent h⟩

/-- Modelled from the claim text, for comparison with the validator: all
four required fields present and non empty, the digest in 64 hex format,
the governance level in the three value enumeration, and a parseable
timestamp. -/
def structurallyValid (dateOK : String → Bool) (r : VirtueReceipt) : Bool :=
  truthy r.document_id && truthy r.hash && truthy r.timestamp
    && truthy r.governance_level && isHex64 (r.hash.getD "")
    && governanceLevels.contains (r.governance_level.getD "")
    && dateOK (r.timestamp.getD "")

theorem count_guard_keep_eq (c : Prop) [Decidable c] (m : String) :
    List.count m (if c then [] else [m]) = if c then 0 else 1 := by
  split <;> simp

theorem count_guard_keep_ne (c : Prop) [Decidable c] {m a : String}
    (h : ¬ m = a) : List.count a (if c then [] else [m]) = 0 := by
  split <;> simp [List.count_cons, h, Ne.symm h]

theorem count_flag_ne (c : Prop) [Decidable c] {m a : String} (h : ¬ m = a) :
    List.count a (if c then [m] else []) = 0 := by
  split <;> simp [List.count_cons, h, Ne.symm h]

theorem count_gov_flag_ne (c : Prop) [Decidable c] (gl : String) {a : String}
    (h : ∀ g : String, ¬ ("Invalid governance level: " ++ g) = a) :
    List.count a (if c then ["Invalid governance level: " ++ gl] else []) = 0 := by
  split <;> simp [List.count_cons, h gl, Ne.symm (h gl)]

theorem invalidGov_ne_missing_docid (g : String) :
    ¬ ("Invalid governance level: " ++ g) = "Missing required field: document_id" := by
  rw [show ("Missing required field: document_id" : String)
      = "Missing required field: " ++ "document_id" by decide]
  exact invalidGov_ne_missing g "document_id"

theorem invalidGov_ne_missing_hash (g : String) :
    ¬ ("Invalid governance level: " ++ g) = "Missing required field: hash" := by
  rw [show ("Missing required field: hash" : String)
      = "Missing required field: " ++ "hash" by decide]
  exact invalidGov_ne_missing g "hash"

theorem invalidGov_ne_missing_timestamp (g : String) :
    ¬ ("Invalid governance level: " ++ g) = "Missing required field: timestamp" := by
  rw [show ("Missing required field: timestamp" : String)
      = "Missing required field: " ++ "timestamp" by decide]
  exact invalidGov_ne_missing g "timestamp"

theorem invalidGov_ne_missing_gov (g : String) :
    ¬ ("Invalid governance level: " ++ g)
      = "Missing required field: governance_level" := by
  rw [show ("Missing required field: governance_level" : String)
      = "Missing required field: " ++ "governance_level" by decide]
  exact invalidGov_ne_missing g "governance_level"

/-- Claim C8: the receipt validator emits exactly one missing field error
naming each required field that is absent or empty; it returns the empty
list exactly when the receipt passes all structural checks, namely the
required fields present and non empty, a 64 hex digest, a governance level
in the three value enumeration and a parseable timestamp; and, being a
pure function of the receipt, it leaves its input unchanged by
construction. -/
theorem validateVirtueReceipt_spec (dateOK : String → Bool) (r : VirtueReceipt) :
    ((validateVirtueReceiptFields dateOK r).count
        "Missing required field: document_id"
        = if truthy r.document_id then 0 else 1)
    ∧ ((validateVirtueReceiptFields dateOK r).count
        "Missing required field: hash"
        = if truthy r.hash then 0 else 1)
    ∧ ((validateVirtueReceiptFields dateOK r).count
        "Missing required field: timestamp"
        = if truthy r.timestamp then 0 else 1)
    ∧ ((validateVirtueReceiptFields dateOK r).count
        "Missing required field: governance_level"
        = if truthy r.governance_level then 0 else 1)
    ∧ (validateVirtueReceiptFields dateOK r = []
        ↔ structurallyValid dateOK r = true) := by
  refine ⟨?_, ?_, ?_, ?_, ?_⟩
  · simp only [validateVirtueReceiptFields, missingFieldErrors,
      List.count_append]
    rw [count_guard_keep_eq, count_guard_keep_ne _ (by decide),
      count_guard_keep_ne _ (by decide), count_guard_keep_ne _ (by decide),
      count_flag_ne _ (by decide),
      count_gov_flag_ne _ _ invalidGov_ne_missing_docid,
      count_flag_ne _ (by decide)]
    simp
  · simp only [validateVirtueReceiptFields, missingFieldErrors,
      List.count_append]
    rw [count_guard_keep_ne _ (by decide), count_guard_keep_eq,
      count_guard_keep_ne _ (by decide), count_guard_keep_ne _ (by decide),
      count_flag_ne _ (by decide),
      count_gov_flag_ne _ _ invalidGov_ne_missing_hash,
      count_flag_ne _ (by decide)]
    simp
  · simp only [validateVirtueReceiptFields, missingFieldErrors,
      List.count_append]
    rw [count_guard_keep_ne _ (by decide), count_guard_keep_ne _ (by decide),
      count_guard_keep_eq, count_guard_keep_ne _ (by decide),
      count_flag_ne _ (by decide),
      count_gov_flag_ne _ _ invalidGov_ne_missing_timestamp,
      count_flag_ne _ (by decide)]
    simp
  · simp only [validateVirtueReceiptFields, missingFieldErrors,
      List.count_append]
    rw [count_guard_keep_ne _ (by decide), count_guard_keep_ne _ (by decide),
      count_guard_keep_ne _ (by decide), count_guard_keep_eq,
      count_flag_ne _ (by decide),
      count_gov_flag_ne _ _ invalidGov_ne_missing_gov,
      count_flag_ne _ (by decide)]
    simp
  · cases hd : truthy r.document_id <;> cases hh : truthy r.hash <;>
      cases ht : truthy r.timestamp <;> cases hg : truthy r.governance_level <;>
      simp [validateVirtueReceiptFields, missingFieldErrors, structurallyValid,
        hd, hh, ht, hg, List.append_eq_nil] <;>
      by_cases hx : isHex64 (r.hash.getD "") <;>
      by_cases hc : governanceLevels.contains (r.governance_level.getD "") <;>
      by_cases hdo : dateOK (r.timestamp.getD "") <;>
      simp [hx, hc, hdo]

/-- Claim C10: every result returned by verifyBuffer or verifyDocument has
its verified flag true exactly when its status is VERIFIED, and no
returned result is left in the initial PENDING state. -/
theorem verified_iff_status (H : String → String) (dateOK : String → Bool)
    (opts : ClientOptions) (buffer : String) (vr : Option VirtueReceipt)
    (now : Nat) (readResult : Except String String)
    (extract : String → Option (Option VirtueReceipt)) :
    (((verifyBuffer H dateOK opts buffer vr now).verified = true
        ↔ (verifyBuffer H dateOK opts buffer vr now).status = .VERIFIED)
      ∧ (verifyBuffer H dateOK opts buffer vr now).status ≠ .PENDING)
    ∧ (((verifyDocument H dateOK opts readResult extract now).verified = true
        ↔ (verifyDocument H dateOK opts readResult extract now).status
            = .VERIFIED)
      ∧ (verifyDocument H dateOK opts readResult extract now).status
          ≠ .PENDING) := by
  constructor
  · simp only [verifyBuffer]
    repeat' split
    all_goals simp [createEmptyResult]
  · simp only [verifyDocument]
    repeat' split
    all_goals simp [createEmptyResult]
